import Mathlib

/-!
Shallow embedding of the `android_native_onnx` inference core
(`src/errors.rs`, `src/constants.rs`, `src/labels.rs`, `src/inference.rs`,
`src/types.rs`) and proofs of the specification's claims about it.

Modelling conventions:
* `f32` values are idealised as real numbers (`ℝ`); scalar buffers are
  `List ℝ`.  Where a claim only concerns ordering/indexing behaviour the
  numeric type is kept polymorphic over a linear order.
* Effects of the external world (filesystem, the `image` crate's decoder,
  the ONNX runtime engine) are supplied by explicit environment records;
  all the repository's own control flow and arithmetic is translated
  directly from the Rust source.
* The process-wide mutex-guarded singletons (`IMAGENET_LABELS`,
  `CACHED_SESSION`, `LAST_RESULT`) become explicit state values threaded
  through the operations; a lock acquisition never fails in this model
  (poisoning requires a panic, which the core itself never performs).
-/

namespace AndroidNativeOnnx

/-- Error taxonomy of `src/errors.rs` (`enum InferenceError`). -/
inductive InferenceError where
  | modelNotFound (msg : String)
  | invalidImageData (msg : String)
  | sessionCreationFailed (msg : String)
  | modelLoadingFailed (msg : String)
  | inferenceFailed (msg : String)
  | outputProcessingFailed (msg : String)
  | labelsLoadingFailed (msg : String)
  | memoryError (msg : String)
deriving DecidableEq

/-- Constants from `src/constants.rs`. -/
def IMAGE_WIDTH : Nat := 224

def IMAGE_HEIGHT : Nat := 224

def IMAGENET_MEAN : List ℝ := [0.485, 0.456, 0.406]

def IMAGENET_STD : List ℝ := [0.229, 0.224, 0.225]

def TOP_K_PREDICTIONS : Nat := 5

def MIN_CLASSIFICATION_CLASSES : Nat := 1000

/-- Fallback ImageNet class labels (first 15 classes), `src/constants.rs`. -/
def FALLBACK_LABELS : List String :=
  ["tench", "goldfish", "great white shark", "tiger shark", "hammerhead",
   "electric ray", "stingray", "cock", "hen", "ostrich", "brambling",
   "goldfinch", "house finch", "junco", "indigo bunting"]

/-- Contents of the `IMAGENET_LABELS` mutex of `src/labels.rs`:
`none` when no label file has been loaded. -/
abbrev LabelsState := Option (List String)

/-- Synthetic placeholder name `format!("class_\x7b\x7d", i)`. -/
def classLabel (i : Nat) : String := "class_" ++ toString i

/-- `LabelsManager::get_labels` (`src/labels.rs`): the loaded list if any,
otherwise the fallback table extended with `class_<i>` placeholders for
`i` in `labels.len()..1000`. -/
def get_labels (st : LabelsState) : List String :=
  match st with
  | some labels => labels
  | none =>
    let labels := FALLBACK_LABELS
    labels ++ (List.range' labels.length (1000 - labels.length)).map classLabel

/-- `LabelsManager::get_label` (`src/labels.rs`): label at `index`, or the
synthetic `class_<index>` when out of range. -/
def get_label (st : LabelsState) (index : Nat) : String :=
  let labels := get_labels st
  if h : index < labels.length then labels.get ⟨index, h⟩
  else classLabel index

/-- Line-splitting step of `LabelsManager::load_labels_from_content`
(`src/labels.rs`): `content.lines()` filtered to lines that are non-empty
after trimming, each line trimmed. -/
def parsedLabels (content : String) : List String :=
  ((content.splitOn "\n").filter
      (fun line => !line.trim.isEmpty)).map (fun line => line.trim)

/-- `LabelsManager::load_labels_from_content` (`src/labels.rs`): split into
lines, drop lines that are empty after trimming, trim the rest; error
(state unchanged) when nothing remains, otherwise replace the stored list
and return the count.  Returns (call result, new mutex contents). -/
def load_labels_from_content (st : LabelsState) (content : String) :
    Except InferenceError Nat × LabelsState :=
  let labels := parsedLabels content
  if labels.isEmpty then
    (Except.error (InferenceError.labelsLoadingFailed "Labels file is empty"), st)
  else
    (Except.ok labels.length, some labels)

/-- A loaded ONNX Runtime session (`ort::session::Session`): opaque handle
produced by the external engine, identified here by a token. -/
structure Session where
  id : Nat
deriving DecidableEq

/-- Contents of the `CACHED_SESSION` mutex of `src/inference.rs`:
at most one `(path, session)` pair. -/
abbrev CacheState := Option (String × Session)

/-- External effects consulted by `InferenceEngine::load_model`: the
filesystem (`Path::exists`, `fs::read`) and the ONNX engine
(`Session::builder`, `commit_from_memory`). -/
structure LoadEnv where
  fileExists : String → Bool
  readFile : String → Except String (List Nat)
  builderOk : Bool
  commitFromMemory : List Nat → Except String Session

/-- Fresh-load tail of `InferenceEngine::load_model` (`src/inference.rs`,
lines 94-111): read the model bytes, build a session, and on success
replace the cache slot with the new `(path, session)` pair. -/
def loadFreshSession (env : LoadEnv) (cache : CacheState) (model_path : String) :
    Except InferenceError Unit × CacheState :=
  match env.readFile model_path with
  | Except.error e =>
    (Except.error (InferenceError.modelLoadingFailed
      ("Failed to read model file " ++ model_path ++ ": " ++ e)), cache)
  | Except.ok model_bytes =>
    if env.builderOk then
      match env.commitFromMemory model_bytes with
      | Except.error e =>
        (Except.error (InferenceError.modelLoadingFailed
          ("Failed to load model from memory: " ++ e)), cache)
      | Except.ok session => (Except.ok (), some (model_path, session))
    else
      (Except.error (InferenceError.sessionCreationFailed
        "Failed to create ONNX session builder"), cache)

/-- `InferenceEngine::load_model` (`src/inference.rs`): not-found check,
then same-path cache hit (no-op), then fresh load replacing the slot.
Returns (call result, new contents of `CACHED_SESSION`). -/
def load_model (env : LoadEnv) (cache : CacheState) (model_path : String) :
    Except InferenceError Unit × CacheState :=
  if env.fileExists model_path then
    match cache with
    | some (cached_path, session) =>
      if cached_path = model_path then
        (Except.ok (), some (cached_path, session))
      else loadFreshSession env (some (cached_path, session)) model_path
    | none => loadFreshSession env none model_path
  else
    (Except.error (InferenceError.modelNotFound model_path), cache)

/-- `InferenceEngine::is_model_loaded` (`src/inference.rs`). -/
def is_model_loaded (cache : CacheState) : Bool := cache.isSome

/-- `InferenceEngine::get_loaded_model_path` (`src/inference.rs`). -/
def get_loaded_model_path (cache : CacheState) : Option String :=
  cache.map (fun c => c.1)

/-- `ClassificationResult` of `src/types.rs`, polymorphic in the numeric
type standing in for `f32`. -/
structure ClassificationResult (α : Type) where
  class_id : Nat
  class_name : String
  confidence : α
deriving DecidableEq

/-- `InferenceResult` of `src/types.rs` (named `InferenceOutput` as in the
`use ... as` alias of `src/inference.rs`). -/
structure InferenceOutput where
  data : List ℝ
  shape : List Nat
  is_classification : Bool
  top_predictions : List (ClassificationResult ℝ)
  inference_time_ms : ℝ
  preprocessing_time_ms : ℝ
  postprocessing_time_ms : ℝ
  total_time_ms : ℝ

/-- `InferenceResult::new_with_timing` (`src/types.rs`):
`total_time_ms = preprocessing + inference + postprocessing`. -/
def InferenceOutput.new_with_timing (data : List ℝ) (shape : List Nat)
    (is_classification : Bool) (top_predictions : List (ClassificationResult ℝ))
    (inference_time_ms preprocessing_time_ms postprocessing_time_ms : ℝ) :
    InferenceOutput :=
  { data := data, shape := shape, is_classification := is_classification,
    top_predictions := top_predictions,
    inference_time_ms := inference_time_ms,
    preprocessing_time_ms := preprocessing_time_ms,
    postprocessing_time_ms := postprocessing_time_ms,
    total_time_ms := preprocessing_time_ms + inference_time_ms + postprocessing_time_ms }

/-- Maximum of a list of reals.  Models the fold
`input.iter().fold(f32::NEG_INFINITY, |a, &b| a.max(b))`: on every
non-empty list the two agree, and on the empty list the value is never
consumed (the maps below are over the same empty list). -/
def listMax : List ℝ → ℝ
  | [] => 0
  | x :: xs => xs.foldl max x

/-- `InferenceEngine::softmax` (`src/inference.rs`): subtract the maximum,
exponentiate, divide by the sum. -/
noncomputable def softmax (input : List ℝ) : List ℝ :=
  let max_val := listMax input
  let exp_values := input.map (fun x => Real.exp (x - max_val))
  let sum := exp_values.sum
  exp_values.map (fun x => x / sum)

/-- `InferenceEngine::get_top_predictions` (`src/inference.rs`): pair each
probability with its index, stable-sort descending by probability (Rust's
`sort_by` with comparator `b.1.partial_cmp(&a.1)` is a stable merge sort),
take the first `k`, and resolve each index's label. -/
def get_top_predictions {α : Type} [LinearOrder α] (st : LabelsState)
    (probabilities : List α) (k : Nat) : List (ClassificationResult α) :=
  let indexed_probs := probabilities.enum
  let sorted := indexed_probs.mergeSort (fun a b => decide (b.2 ≤ a.2))
  (sorted.take k).map (fun p => ⟨p.1, get_label st p.1, p.2⟩)

/-- Classification postprocessing step of `InferenceEngine::run_inference`
(`src/inference.rs`, lines 149-155): softmax and top-K ranking only when
the raw output has at least `MIN_CLASSIFICATION_CLASSES` elements. -/
noncomputable def classify_output (st : LabelsState) (data : List ℝ) :
    Bool × List (ClassificationResult ℝ) :=
  if MIN_CLASSIFICATION_CLASSES ≤ data.length then
    (true, get_top_predictions st (softmax data) TOP_K_PREDICTIONS)
  else (false, [])

/-- Selection of one channel of an RGB pixel. -/
def channelValue : Nat → Nat × Nat × Nat → Nat
  | 0, p => p.1
  | 1, p => p.2.1
  | _, p => p.2.2

/-- Per-channel ImageNet normalization of one byte value
(`(value/255 - mean[c]) / std[c]`, `src/inference.rs` lines 41-43). -/
noncomputable def normalizeChannel (c : Nat) (v : Nat) : ℝ :=
  ((v : ℝ) / 255 - IMAGENET_MEAN.getD c 0) / IMAGENET_STD.getD c 1

/-- The `(1, 3, H, W)` tensor of `preprocess_image` flattened in row-major
order (`Array4::into_raw_vec`): channel, then row, then column.  `pixels`
is the decoded, resized, RGB8 image (coordinates `x`, `y`). -/
noncomputable def imageTensor (pixels : Nat → Nat → Nat × Nat × Nat) : List ℝ :=
  (List.range 3).flatMap fun c =>
    (List.range IMAGE_HEIGHT).flatMap fun y =>
      (List.range IMAGE_WIDTH).map fun x =>
        normalizeChannel c (channelValue c (pixels x y))

/-- One output tensor of a session run: its shape and the result of
`try_extract_tensor::<f32>` on it. -/
structure RunOutput where
  shape : List Nat
  tensorData : Except String (List ℝ)

/-- External effects consulted by `InferenceEngine::run_inference`: the
`image` crate's decoder (`load_from_memory`, composed with `resize_exact`
and `to_rgb8`, all external), `Value::from_array`, `Session::run`, and the
elapsed stage times read from the clock. -/
structure RunEnv where
  loadFromMemory : List Nat → Option (Nat → Nat → Nat × Nat × Nat)
  valueFromArray : List ℝ → Except String Unit
  sessionRun : Session → List ℝ → Except String (List RunOutput)
  preprocessingTime : ℝ
  inferenceTime : ℝ
  postprocessingTime : ℝ

/-- `InferenceEngine::preprocess_image` (`src/inference.rs`): decode
failure is `InvalidImageData`; otherwise the normalized tensor. -/
noncomputable def preprocess_image (env : RunEnv) (image_bytes : List Nat) :
    Except InferenceError (List ℝ) :=
  match env.loadFromMemory image_bytes with
  | none => Except.error (InferenceError.invalidImageData "Failed to load image from bytes")
  | some pixels => Except.ok (imageTensor pixels)

/-- The mutable state `run_inference` touches: the `CACHED_SESSION` slot
and the `LAST_RESULT` slot. -/
structure RunState where
  cache : CacheState
  lastResult : Option InferenceOutput

/-- `InferenceEngine::run_inference` (`src/inference.rs`): preprocess,
then require a cached session, build the input tensor, run the engine,
extract the first output, postprocess, and store the result in
`LAST_RESULT`.  Returns (call result, new state). -/
noncomputable def run_inference (env : RunEnv) (st : LabelsState) (rs : RunState)
    (image_bytes : List Nat) : Except InferenceError InferenceOutput × RunState :=
  match preprocess_image env image_bytes with
  | Except.error e => (Except.error e, rs)
  | Except.ok input_data =>
    match rs.cache with
    | none =>
      (Except.error (InferenceError.modelNotFound
        "No model loaded. Call load_model first."), rs)
    | some (_cached_path, session) =>
      match env.valueFromArray input_data with
      | Except.error e =>
        (Except.error (InferenceError.inferenceFailed
          ("Failed to create input tensor: " ++ e)), rs)
      | Except.ok _ =>
        match env.sessionRun session input_data with
        | Except.error e =>
          (Except.error (InferenceError.inferenceFailed
            ("Inference execution failed: " ++ e)), rs)
        | Except.ok outputs =>
          match outputs with
          | [] =>
            (Except.error (InferenceError.outputProcessingFailed
              "No output from model"), rs)
          | output :: _ =>
            match output.tensorData with
            | Except.error e =>
              (Except.error (InferenceError.outputProcessingFailed
                ("Failed to extract tensor data: " ++ e)), rs)
            | Except.ok data =>
              let ic := classify_output st data
              let result := InferenceOutput.new_with_timing data output.shape
                ic.1 ic.2 env.inferenceTime env.preprocessingTime
                env.postprocessingTime
              (Except.ok result, { rs with lastResult := some result })

/-!  Theorems settling the specification's claims. -/

set_option maxRecDepth 10000

/-- C7: with no label set loaded, `get_labels` returns exactly 1000
entries — the 15 hardcoded fallback names followed by synthetic
`class_<i>` placeholders — so entry 0 is `"tench"`, entry 14 is
`"indigo bunting"`, and entry 999 is `"class_999"`; the call is total and
the result is never empty. -/
theorem get_labels_fallback_spec :
    (get_labels none).length = 1000 ∧
    (get_labels none).take FALLBACK_LABELS.length = FALLBACK_LABELS ∧
    (get_labels none).get? 0 = some "tench" ∧
    (get_labels none).get? 14 = some "indigo bunting" ∧
    (get_labels none).get? 999 = some "class_999" ∧
    get_labels none ≠ [] := by
  refine ⟨by decide, by decide, by decide, by decide, by decide, by decide⟩

unseal String.splitOnAux Substring.takeWhileAux Substring.takeRightWhileAux in
/-- C8: `load_labels_from_content` splits its input into non-empty trimmed
lines; when that list is empty it fails with `LabelsLoadingFailed` and
leaves the label state unchanged, otherwise it replaces the state with
those lines in order and returns their count.  In particular the content
consisting of three blank lines is rejected with the state unchanged. -/
theorem load_labels_from_content_spec :
    (∀ (st : LabelsState) (content : String),
      (parsedLabels content = [] →
        load_labels_from_content st content =
          (Except.error (InferenceError.labelsLoadingFailed "Labels file is empty"), st)) ∧
      (parsedLabels content ≠ [] →
        load_labels_from_content st content =
          (Except.ok (parsedLabels content).length, some (parsedLabels content)))) ∧
    (∀ st : LabelsState,
      load_labels_from_content st "\n\n\n" =
        (Except.error (InferenceError.labelsLoadingFailed "Labels file is empty"), st)) := by
  constructor
  · intro st content
    constructor
    · intro h
      simp [load_labels_from_content, h]
    · intro h
      simp [load_labels_from_content, List.isEmpty_iff, h]
  · intro st
    have h : parsedLabels "\n\n\n" = [] := by rfl
    simp [load_labels_from_content, h]

/-- C9: `get_label` is total: it returns the label stored at `index` in
the active-or-fallback list when `index` is in range, and the synthetic
`class_<index>` when it is out of range; in particular with a loaded
3-element list, index 1 resolves to the stored label and index 500 to
`"class_500"`. -/
theorem get_label_spec :
    (∀ (st : LabelsState) (index : Nat),
      ((get_labels st).length ≤ index → get_label st index = classLabel index) ∧
      (∀ l, (get_labels st).get? index = some l → get_label st index = l)) ∧
    get_label (some ["dog", "cat", "bird"]) 1 = "cat" ∧
    get_label (some ["dog", "cat", "bird"]) 500 = "class_500" := by
  refine ⟨?_, by decide, by decide⟩
  intro st index
  constructor
  · intro h
    simp only [get_label]
    rw [dif_neg (by omega)]
  · intro l hl
    have h : index < (get_labels st).length := by
      by_contra h'
      push_neg at h'
      rw [List.get?_eq_none.2 h'] at hl
      exact Option.noConfusion hl
    simp only [get_label]
    rw [dif_pos h]
    rw [List.get?_eq_get h] at hl
    exact Option.some.inj hl

/-- C2: loading is idempotent on the cached path — when the cache holds
`(model_path, s)` and the file exists, `load_model` is a no-op success
whatever the rest of the environment does (so the file is not re-read and
no new session is created: the result does not depend on `readFile`,
`builderOk` or `commitFromMemory`) — and for a path at which no file
exists `load_model` fails with `ModelNotFound`, leaving any cache state
unchanged. -/
theorem load_model_idempotent_spec :
    ∀ (env : LoadEnv) (model_path : String),
      (∀ s : Session, env.fileExists model_path = true →
        load_model env (some (model_path, s)) model_path =
          (Except.ok (), some (model_path, s))) ∧
      (∀ cache : CacheState, env.fileExists model_path = false →
        load_model env cache model_path =
          (Except.error (InferenceError.modelNotFound model_path), cache)) := by
  intro env model_path
  constructor
  · intro s h
    simp [load_model, h]
  · intro cache h
    simp [load_model, h]

/-- C1: a successful `load_model` on an existing file whose path differs
from the cached one installs the new `(path, session)` pair in place of
the prior one, so `get_loaded_model_path` afterwards returns the new path
and the prior session no longer occupies the cache slot. -/
theorem load_model_replaces_spec (env : LoadEnv) (cached_path : String)
    (s : Session) (model_path : String) (bytes : List Nat) (s' : Session)
    (hne : cached_path ≠ model_path)
    (hex : env.fileExists model_path = true)
    (hread : env.readFile model_path = Except.ok bytes)
    (hbuild : env.builderOk = true)
    (hcommit : env.commitFromMemory bytes = Except.ok s') :
    load_model env (some (cached_path, s)) model_path =
      (Except.ok (), some (model_path, s')) ∧
    get_loaded_model_path (load_model env (some (cached_path, s)) model_path).2 =
      some model_path := by
  have h : load_model env (some (cached_path, s)) model_path =
      (Except.ok (), some (model_path, s')) := by
    simp [load_model, loadFreshSession, hne, hex, hread, hbuild, hcommit]
  exact ⟨h, by rw [h]; rfl⟩

/-- Concrete environment and inputs instantiating `load_model_replaces_spec`. -/
def replaceEnv : LoadEnv :=
  { fileExists := fun _ => true,
    readFile := fun _ => Except.ok [0],
    builderOk := true,
    commitFromMemory := fun _ => Except.ok ⟨1⟩ }

/-- Witness for C1: loading `"b.onnx"` over a cache holding `"a.onnx"`
replaces the slot and `get_loaded_model_path` reports `"b.onnx"`. -/
theorem load_model_replaces_witness :
    load_model replaceEnv (some ("a.onnx", ⟨0⟩)) "b.onnx" =
      (Except.ok (), some ("b.onnx", ⟨1⟩)) ∧
    get_loaded_model_path
        (load_model replaceEnv (some ("a.onnx", ⟨0⟩)) "b.onnx").2 =
      some "b.onnx" :=
  load_model_replaces_spec replaceEnv "a.onnx" ⟨0⟩ "b.onnx" [0] ⟨1⟩
    (by decide) rfl rfl rfl rfl

/-- C3 (amended): with an empty session cache, `run_inference` on an
input that decodes successfully fails with the `ModelNotFound`-class
error and leaves the whole state — in particular the stored last result —
unchanged.  (As stated over all inputs the claim fails: an input that
does not decode yields `InvalidImageData` even with an empty cache, see
the counterexample and C10.) -/
theorem run_inference_empty_cache (env : RunEnv) (st : LabelsState)
    (rs : RunState) (image_bytes : List Nat)
    (hc : rs.cache = none)
    (hd : (env.loadFromMemory image_bytes).isSome = true) :
    (run_inference env st rs image_bytes).1 =
      Except.error (InferenceError.modelNotFound
        "No model loaded. Call load_model first.") ∧
    (run_inference env st rs image_bytes).2 = rs := by
  obtain ⟨pixels, hp⟩ := Option.isSome_iff_exists.1 hd
  simp [run_inference, preprocess_image, hp, hc]

/-- Concrete environment whose decoder accepts every byte sequence. -/
def decodeOkEnv : RunEnv :=
  { loadFromMemory := fun _ => some (fun _ _ => (0, 0, 0)),
    valueFromArray := fun _ => Except.ok (),
    sessionRun := fun _ _ => Except.error "",
    preprocessingTime := 0, inferenceTime := 0, postprocessingTime := 0 }

/-- Witness for C3's amended theorem at a concrete decodable input and
empty cache. -/
theorem run_inference_empty_cache_witness :
    (run_inference decodeOkEnv none ⟨none, none⟩ []).1 =
      Except.error (InferenceError.modelNotFound
        "No model loaded. Call load_model first.") ∧
    (run_inference decodeOkEnv none ⟨none, none⟩ []).2 = ⟨none, none⟩ :=
  run_inference_empty_cache decodeOkEnv none ⟨none, none⟩ [] rfl rfl

/-- Concrete environment whose decoder rejects every byte sequence, as
the `image` crate does on an empty or corrupt buffer. -/
def decodeFailEnv : RunEnv :=
  { loadFromMemory := fun _ => none,
    valueFromArray := fun _ => Except.ok (),
    sessionRun := fun _ _ => Except.error "",
    preprocessingTime := 0, inferenceTime := 0, postprocessingTime := 0 }

/-- Counterexample to C3 as stated: with an empty cache, the
undecodable input yields `InvalidImageData`, not a `ModelNotFound`-class
error. -/
theorem run_inference_empty_cache_cex :
    (run_inference decodeFailEnv none ⟨none, none⟩ []).1 =
      Except.error (InferenceError.invalidImageData
        "Failed to load image from bytes") ∧
    ¬ ∃ msg, (run_inference decodeFailEnv none ⟨none, none⟩ []).1 =
      Except.error (InferenceError.modelNotFound msg) := by
  constructor
  · rfl
  · rintro ⟨msg, h⟩
    rw [show (run_inference decodeFailEnv none ⟨none, none⟩ []).1 =
        Except.error (InferenceError.invalidImageData
          "Failed to load image from bytes") from rfl] at h
    exact InferenceError.noConfusion (Except.error.inj h)

/-- C10: `run_inference` preprocesses before consulting the session
cache: an input whose decoding fails yields `InvalidImageData` whatever
the cache state (state unchanged), and the empty-cache `ModelNotFound`
error is only ever produced for inputs that decode successfully. -/
theorem run_inference_preprocess_first :
    ∀ (env : RunEnv) (st : LabelsState) (rs : RunState) (image_bytes : List Nat),
      (env.loadFromMemory image_bytes = none →
        (run_inference env st rs image_bytes).1 =
          Except.error (InferenceError.invalidImageData
            "Failed to load image from bytes") ∧
        (run_inference env st rs image_bytes).2 = rs) ∧
      (∀ msg, (run_inference env st rs image_bytes).1 =
          Except.error (InferenceError.modelNotFound msg) →
        (env.loadFromMemory image_bytes).isSome = true) := by
  intro env st rs image_bytes
  constructor
  · intro h
    simp [run_inference, preprocess_image, h]
  · intro msg h
    cases hp : env.loadFromMemory image_bytes with
    | none =>
      rw [show (run_inference env st rs image_bytes).1 =
          Except.error (InferenceError.invalidImageData
            "Failed to load image from bytes") from by
        simp [run_inference, preprocess_image, hp]] at h
      exact absurd (Except.error.inj h) (by simp)
    | some _ => rfl

/-- The softmax output has one probability per input logit. -/
theorem length_softmax (v : List ℝ) : (softmax v).length = v.length := by
  simp [softmax]

/-- `get_top_predictions` returns `min k (number of probabilities)`
entries. -/
theorem length_get_top_predictions {α : Type} [LinearOrder α]
    (st : LabelsState) (probs : List α) (k : Nat) :
    (get_top_predictions st probs k).length = min k probs.length := by
  simp [get_top_predictions]

/-- C4: the postprocessing step applies softmax and top-K ranking exactly
when the raw output has at least `MIN_CLASSIFICATION_CLASSES` (1000)
elements; below the threshold it reports `(false, [])`, at or above it
`is_classification = true` with exactly `TOP_K_PREDICTIONS` (5) ranked
entries. -/
theorem classify_output_spec :
    ∀ (st : LabelsState) (data : List ℝ),
      (data.length < MIN_CLASSIFICATION_CLASSES →
        classify_output st data = (false, [])) ∧
      (MIN_CLASSIFICATION_CLASSES ≤ data.length →
        (classify_output st data).1 = true ∧
        (classify_output st data).2.length = TOP_K_PREDICTIONS) := by
  intro st data
  constructor
  · intro h
    simp [classify_output, Nat.not_le.2 h]
  · intro h
    refine ⟨by simp [classify_output, h], ?_⟩
    simp only [classify_output, if_pos h, length_get_top_predictions,
      length_softmax]
    simp only [TOP_K_PREDICTIONS, MIN_CLASSIFICATION_CLASSES] at h ⊢
    omega

/-- The ranked entries come out sorted by non-increasing confidence. -/
theorem sorted_get_top_predictions {α : Type} [LinearOrder α]
    (st : LabelsState) (probs : List α) (k : Nat) :
    List.Sorted (fun a b : ClassificationResult α => b.confidence ≤ a.confidence)
      (get_top_predictions st probs k) := by
  have hs : (probs.enum.mergeSort (fun a b => decide (b.2 ≤ a.2))).Pairwise
      (fun a b : Nat × α => b.2 ≤ a.2) := by
    have h := @List.sorted_mergeSort (Nat × α)
      (fun a b => decide (b.2 ≤ a.2))
      (fun a b c h1 h2 => by
        simp only [decide_eq_true_eq] at h1 h2 ⊢
        exact le_trans h2 h1)
      (fun a b => by simp [le_total])
      probs.enum
    simpa using h
  unfold get_top_predictions
  exact List.Pairwise.map _ (fun a b hab => hab)
    ((hs.sublist (List.take_sublist _ _)))

/-- Each ranked entry's class index points back at the probability it was
built from, and its name is that index's label. -/
theorem mem_get_top_predictions {α : Type} [LinearOrder α]
    {st : LabelsState} {probs : List α} {k : Nat}
    {e : ClassificationResult α} (he : e ∈ get_top_predictions st probs k) :
    probs[e.class_id]? = some e.confidence ∧
    e.class_name = get_label st e.class_id := by
  unfold get_top_predictions at he
  simp only [List.mem_map] at he
  obtain ⟨p, hp, rfl⟩ := he
  have hp' : p ∈ probs.enum := by
    have hmem := List.take_subset _ _ hp
    simpa using hmem
  refine ⟨?_, rfl⟩
  have hpair : (p.1, p.2) ∈ probs.enum := by simpa using hp'
  exact List.mk_mem_enum_iff_getElem?.1 hpair

unseal Rat.ofScientific List.merge List.mergeSort in
/-- C5: `get_top_predictions` returns exactly `min k (len probs)` entries
in non-increasing confidence order, each carrying the input probability
at its class index; on probabilities `[0.1, 0.7, 0.2]` with `k = 2` it
returns the entries for class 1 (confidence 0.7) and class 2
(confidence 0.2), with the fallback labels resolved. -/
theorem get_top_predictions_spec :
    (∀ (α : Type) [LinearOrder α] (st : LabelsState) (probs : List α) (k : Nat),
      (get_top_predictions st probs k).length = min k probs.length ∧
      List.Sorted (fun a b : ClassificationResult α => b.confidence ≤ a.confidence)
        (get_top_predictions st probs k) ∧
      ∀ e ∈ get_top_predictions st probs k,
        probs[e.class_id]? = some e.confidence) ∧
    get_top_predictions (α := ℚ) none [0.1, 0.7, 0.2] 2 =
      [⟨1, "goldfish", 0.7⟩, ⟨2, "great white shark", 0.2⟩] := by
  constructor
  · intro α _ st probs k
    exact ⟨length_get_top_predictions st probs k,
      sorted_get_top_predictions st probs k,
      fun e he => (mem_get_top_predictions he).1⟩
  · decide

/-- Summing after dividing every element by `s` divides the sum by `s`. -/
theorem sum_map_div_self (l : List ℝ) (s : ℝ) :
    (l.map (fun x => x / s)).sum = l.sum / s := by
  induction l with
  | nil => simp
  | cons a t ih => simp [ih, add_div]

/-- The exponential weights of a non-empty logit vector have positive
sum. -/
theorem sum_exp_pos (v : List ℝ) (hv : v ≠ []) (m : ℝ) :
    0 < (v.map (fun x => Real.exp (x - m))).sum := by
  apply List.sum_pos
  · intro x hx
    simp only [List.mem_map] at hx
    obtain ⟨y, _, rfl⟩ := hx
    exact Real.exp_pos _
  · simpa using hv

/-- On a non-empty logit vector the softmax output sums to exactly 1. -/
theorem softmax_sum_one (v : List ℝ) (hv : v ≠ []) : (softmax v).sum = 1 := by
  simp only [softmax]
  rw [sum_map_div_self]
  exact div_self (ne_of_gt (sum_exp_pos v hv _))

/-- Element access through one `map`, phrased with defaults. -/
theorem getD_map {α β : Type} (f : α → β) (l : List α) (k : Nat)
    (hk : k < l.length) (d : β) (d' : α) :
    (l.map f).getD k d = f (l.getD k d') := by
  rw [List.getD_eq_getElem _ _ (by simpa using hk),
    List.getD_eq_getElem _ _ hk]
  simp

/-- Softmax is strictly monotone: a strictly larger logit receives a
strictly larger probability. -/
theorem softmax_strictMono (v : List ℝ) (i j : Nat) (hi : i < v.length)
    (hj : j < v.length) (hij : v.getD i 0 < v.getD j 0) :
    (softmax v).getD i 0 < (softmax v).getD j 0 := by
  have hv : v ≠ [] := List.ne_nil_of_length_pos (by omega)
  have hS := sum_exp_pos v hv (listMax v)
  have hsm : softmax v = (v.map (fun x => Real.exp (x - listMax v))).map
      (fun x => x / (v.map (fun x => Real.exp (x - listMax v))).sum) := rfl
  rw [hsm, getD_map _ _ i (by simpa using hi) 0 0,
    getD_map _ _ j (by simpa using hj) 0 0,
    getD_map _ _ i hi 0 0, getD_map _ _ j hj 0 0]
  exact (div_lt_div_iff_of_pos_right hS).2 (Real.exp_lt_exp.2 (by linarith))

/-- Subtracting the maximum before exponentiating does not change the
result: the implemented softmax equals the textbook softmax. -/
theorem softmax_eq_unshifted (v : List ℝ) :
    softmax v = v.map (fun x => Real.exp x / (v.map Real.exp).sum) := by
  rcases eq_or_ne v [] with rfl | hv
  · rfl
  · have hm : Real.exp (listMax v) ≠ 0 := (Real.exp_pos _).ne.symm
    have hSumPos : 0 < (v.map Real.exp).sum := by
      apply List.sum_pos
      · intro x hx
        simp only [List.mem_map] at hx
        obtain ⟨y, _, rfl⟩ := hx
        exact Real.exp_pos _
      · simpa using hv
    have hE : (v.map (fun x => Real.exp (x - listMax v))).sum =
        (v.map Real.exp).sum / Real.exp (listMax v) := by
      have hf : (fun x => Real.exp (x - listMax v)) =
          fun x => Real.exp x / Real.exp (listMax v) :=
        funext fun x => Real.exp_sub x (listMax v)
      rw [hf, show (v.map fun x => Real.exp x / Real.exp (listMax v)) =
          ((v.map Real.exp).map (fun x => x / Real.exp (listMax v))) from by
        rw [List.map_map]; rfl]
      exact sum_map_div_self _ _
    have hsm : softmax v = (v.map (fun x => Real.exp (x - listMax v))).map
        (fun x => x / (v.map (fun x => Real.exp (x - listMax v))).sum) := rfl
    rw [hsm, List.map_map, hE]
    congr 1
    funext x
    simp only [Function.comp]
    rw [Real.exp_sub]
    field_simp

/-- C6 (amended): for every non-empty logit vector the softmax output
sums to 1 within 1e-6 (it sums to exactly 1), softmax is strictly
monotone in its inputs, and the max-subtracting implementation computes
exactly the textbook softmax.  (On the empty vector, excluded by the
amendment, the output sums to 0, see the counterexample.) -/
theorem softmax_spec :
    ∀ v : List ℝ,
      (v ≠ [] → |(softmax v).sum - 1| ≤ 1e-6) ∧
      (∀ i j : Nat, i < v.length → j < v.length →
        v.getD i 0 < v.getD j 0 → (softmax v).getD i 0 < (softmax v).getD j 0) ∧
      softmax v = v.map (fun x => Real.exp x / (v.map Real.exp).sum) := by
  intro v
  refine ⟨?_, softmax_strictMono v, softmax_eq_unshifted v⟩
  intro hv
  rw [softmax_sum_one v hv]
  norm_num

/-- Counterexample to C6 as stated over every finite logit vector: on the
empty vector the softmax output is empty and its sum is 0, not within
1e-6 of 1. -/
theorem softmax_empty_cex :
    softmax [] = [] ∧ ¬ |(softmax []).sum - 1| ≤ 1e-6 := by
  refine ⟨rfl, ?_⟩
  rw [show (softmax []).sum = 0 from rfl]
  norm_num

end AndroidNativeOnnx
